import Mathlib

/-!
Verification of the rgb-ops persistence and anchor subsystem.

This file gives a shallow embedding, in Lean 4, of the parts of the
rgb-ops Rust crate relevant to the properties under scrutiny:

* `src/containers/anchors.rs` — the `PubWitness` sum type and its
  `MergeReveal` implementation;
* `src/contract/assignments.rs` — `OutputAssignment` with its
  `check_witness` / `check_bundle` visibility predicates;
* `src/persistence/memory.rs` — the in-memory stash (`MemStash`),
  state (`MemState`, `MemContractState`, `MemContract` with its
  global-state iterator) and index (`MemIndex`);
* `src/indexers/any.rs` — the `AnyResolver` consignment-transaction cache.

Identifiers (txids, contract ids, bundle ids, operation ids, schema ids,
library ids) are 32-byte content-derived hashes in the source; they are
modelled as `Nat`, totally ordered, with content-derivation abstracted as
a projection.  B-tree maps are modelled as `Nat → Option V` functions
(point update = insert) when they are only ever read pointwise, and as
sorted association lists when the code iterates them in key order.
Rust `Result` is `Except`; `&mut self` methods become state-passing
functions returning the updated value.
-/

/-! ## Identifiers -/

abbrev Txid := Nat
abbrev OpId := Nat
abbrev BundleId := Nat
abbrev ContractId := Nat
abbrev SchemaId := Nat
abbrev LibId := Nat
abbrev AssignmentType := Nat
abbrev GlobalStateType := Nat

/-! ## Bitcoin transactions (the fragment used by `PubWitness`)

A transaction input carries a sig-script and segwit witness stack, both
modelled as byte lists.  The txid commits to everything except the
witness stacks; we abstract the committed content as the single field
`body` of `Tx` (plus nothing else: two `Tx` values with equal `body` are
the model of two transactions with equal txid and possibly different
witness data, which is exactly the situation the merge code handles). -/

structure TxIn where
  previous_output : Nat
  script_sig : List Nat
  sequence : Nat
  witness : List (List Nat)
  deriving DecidableEq, Repr

structure Transaction where
  body : Nat
  input : List TxIn
  deriving DecidableEq, Repr

/-- Mirrors `Tx::compute_txid` (non-witness content hash), abstracted. -/
def Transaction.compute_txid (tx : Transaction) : Txid := tx.body

/-! ## `PubWitness` (src/containers/anchors.rs) -/

inductive PubWitness where
  | Txid (id : Nat)
  | Tx (t : Transaction)
  deriving DecidableEq, Repr

namespace PubWitness

/-- `PubWitness::txid()`. -/
def txid : PubWitness → Nat
  | .Txid id => id
  | .Tx t => t.compute_txid

/-- `PubWitness::tx()`. -/
def tx : PubWitness → Option Transaction
  | .Txid _ => none
  | .Tx t => some t

/-- The manual `PartialEq for PubWitness`: equality is over the txid only. -/
def beq (a b : PubWitness) : Bool := a.txid == b.txid

end PubWitness

inductive MergeRevealError where
  | txidMismatch (a b : Txid)
  deriving DecidableEq, Repr

/-- One step of the per-input loop in `MergeReveal for PubWitness`:
replace `input1` with `input2` when `input2` has strictly more total
witness data, or equal witness data and a longer sig-script. -/
def mergeInput (input1 input2 : TxIn) : TxIn :=
  let input1_witness_len : Nat := (input1.witness.map List.length).sum
  let input2_witness_len : Nat := (input2.witness.map List.length).sum
  match compare input1_witness_len input2_witness_len with
  | .lt => input2
  | .eq => if input2.script_sig.length > input1.script_sig.length then input2 else input1
  | .gt => input1

/-- The `zip`-driven loop body of `MergeReveal for PubWitness` over the
two input vectors (`tx1.input.iter_mut().zip(tx2.input.iter())`). -/
def mergeTxInputs (tx1 tx2 : Transaction) : Transaction :=
  { tx1 with input := (tx1.input.zip tx2.input).map (fun p => mergeInput p.1 p.2)
                      ++ tx1.input.drop tx2.input.length }

/-- `MergeReveal for PubWitness::merge_reveal` (src/containers/anchors.rs
lines 233-264), transcribed branch by branch.  Note the first test uses
the crate's own `PartialEq`, which compares txids only. -/
def PubWitness.merge_reveal (s other : PubWitness) :
    Except MergeRevealError PubWitness :=
  if s.beq other then
    .ok s
  else if s.txid ≠ other.txid then
    .error (.txidMismatch s.txid other.txid)
  else
    match other, s with
    | .Tx tx2, .Tx tx1 => .ok (.Tx (mergeTxInputs tx1 tx2))
    | .Tx _, .Txid _ => .ok other
    | .Txid _, _ => .ok s

/-! A first sanity fact: the branch structure collapses, because the
txid-projected equality used in the first test is exactly the negation
of the second test. -/

theorem merge_reveal_same_txid (s other : PubWitness)
    (h : s.txid = other.txid) : s.merge_reveal other = .ok s := by
  simp [PubWitness.merge_reveal, PubWitness.beq, h]

theorem merge_reveal_txid_mismatch (s other : PubWitness)
    (h : s.txid ≠ other.txid) :
    s.merge_reveal other = .error (.txidMismatch s.txid other.txid) := by
  simp [PubWitness.merge_reveal, PubWitness.beq, h]

/-! ## Witness ordinals (`rgb::vm::WitnessOrd`)

`WitnessOrd` lives in the external `rgb` crate.  Modelled from the spec:
`Tentative | Mined(WitnessPos{height, timestamp}) | Archived` with total
order `Archived < Tentative < Mined(low) < Mined(high)`. -/

inductive WitnessOrd where
  | Archived
  | Tentative
  | Mined (height : Nat) (timestamp : Nat)
  deriving DecidableEq, Repr

namespace WitnessOrd

def tag : WitnessOrd → Nat
  | .Archived => 0
  | .Tentative => 1
  | .Mined _ _ => 2

def cmp (a b : WitnessOrd) : Ordering :=
  match a, b with
  | .Mined h1 t1, .Mined h2 t2 => (compare h1 h2).then (compare t1 t2)
  | _, _ => compare a.tag b.tag

def ltb (a b : WitnessOrd) : Bool := a.cmp b == .lt

end WitnessOrd

/-! ## Assignments (src/contract/assignments.rs) -/

structure Opout where
  op : OpId
  ty : AssignmentType
  no : Nat
  deriving DecidableEq, Repr

structure Outpoint where
  txid : Nat
  vout : Nat
  deriving DecidableEq, Repr

/-- `OutputSeal` is an explicit seal over a concrete outpoint; only its
outpoint projection is used by the code under study. -/
structure OutputSeal where
  txid : Nat
  vout : Nat
  deriving DecidableEq, Repr

def OutputSeal.to_outpoint (s : OutputSeal) : Outpoint := ⟨s.txid, s.vout⟩

structure OutputAssignment (State : Type) where
  opout : Opout
  «seal» : OutputSeal
  state : State
  witness : Option Txid
  bundle_id : Option BundleId
  deriving DecidableEq, Repr

/-- `OutputAssignment::check_witness`: visible iff the assignment has no
witness, or the filter holds its witness with an ordinal other than
`Archived` (`!matches!(filter.get(&id), None | Some(Archived))`). -/
def OutputAssignment.check_witness {State : Type}
    (a : OutputAssignment State) (filter : Txid → Option WitnessOrd) : Bool :=
  match a.witness with
  | none => true
  | some witness_id =>
    !(match filter witness_id with
      | none => true
      | some .Archived => true
      | some _ => false)

/-- `OutputAssignment::check_bundle`: visible iff the assignment has no
bundle id, or its bundle id is not in the invalid set. -/
def OutputAssignment.check_bundle {State : Type}
    (a : OutputAssignment State) (invalid_bundles : Finset BundleId) : Bool :=
  match a.bundle_id with
  | some bundle_id => !(decide (bundle_id ∈ invalid_bundles))
  | none => true

abbrev VoidState := Unit
abbrev RevealedValue := Nat
abbrev RevealedData := Nat

/-! ## Global-state keys and ordinals

`GlobalOut` and `OpWitness` live in `src/contract/mod.rs`, which is not
among the provided sources.  Modelled from the spec: `GlobalOut =
{ opid, index : u16, op_witness : Genesis | Transition(Txid,
AssignmentType), nonce : u64 }`, the full (static) ordering key of a
global-state item, with genesis items comparing lowest so that they are
yielded last by the descending iteration.  `GlobalOrd` lives in the
external `rgb` crate; modelled from the spec: a sentinel (lowest) for
genesis items, and `(WitnessOrd, nonce, opid, index)` lexicographic for
transition items. -/

inductive OpWitness where
  | Genesis
  | Transition (id : Txid) (ty : AssignmentType)
  deriving DecidableEq, Repr

def OpWitness.witness_id : OpWitness → Option Txid
  | .Genesis => none
  | .Transition id _ => some id

structure GlobalOut where
  opid : OpId
  index : Nat
  op_witness : OpWitness
  nonce : Nat
  deriving DecidableEq, Repr

def GlobalOut.witness_id (o : GlobalOut) : Option Txid := o.op_witness.witness_id

namespace GlobalOut

def tag (o : GlobalOut) : Nat :=
  match o.op_witness with
  | .Genesis => 0
  | .Transition _ _ => 1

def wid (o : GlobalOut) : Nat :=
  match o.op_witness with
  | .Genesis => 0
  | .Transition id _ => id

def wty (o : GlobalOut) : Nat :=
  match o.op_witness with
  | .Genesis => 0
  | .Transition _ ty => ty

/-- The static total order on `GlobalOut` map keys (genesis first). -/
def cmp (a b : GlobalOut) : Ordering :=
  (compare a.tag b.tag).then <| (compare a.opid b.opid).then <|
    (compare a.index b.index).then <| (compare a.nonce b.nonce).then <|
      (compare a.wid b.wid).then (compare a.wty b.wty)

def ltb (a b : GlobalOut) : Bool := a.cmp b == .lt

end GlobalOut

inductive GlobalOrd where
  | genesis (idx : Nat)
  | transition (opid : OpId) (idx : Nat) (ty : AssignmentType) (nonce : Nat)
      (witness_ord : WitnessOrd)
  deriving DecidableEq, Repr

namespace GlobalOrd

def cmp (a b : GlobalOrd) : Ordering :=
  match a, b with
  | .genesis i, .genesis j => compare i j
  | .genesis _, .transition .. => .lt
  | .transition .., .genesis _ => .gt
  | .transition o1 i1 _ n1 w1, .transition o2 i2 _ n2 w2 =>
    (WitnessOrd.cmp w1 w2).then <| (compare n1 n2).then <|
      (compare o1 o2).then (compare i1 i2)

def ltb (a b : GlobalOrd) : Bool := a.cmp b == .lt

def isGenesis : GlobalOrd → Bool
  | .genesis _ => true
  | .transition .. => false

end GlobalOrd

/-! ## In-memory contract state (src/persistence/memory.rs) -/

structure MemGlobalState where
  known : List (GlobalOut × RevealedData)
  limit : Nat
  deriving DecidableEq, Repr

structure MemContractState where
  schema_id : SchemaId
  contract_id : ContractId
  global : List (GlobalStateType × MemGlobalState)
  rights : List (OutputAssignment VoidState)
  fungibles : List (OutputAssignment RevealedValue)
  data : List (OutputAssignment RevealedData)
  deriving DecidableEq, Repr

/-- The filtered read view `MemContract` (filter restricted to the
contract, a snapshot of the invalid-bundle set, and the unfiltered
state). -/
structure MemContract where
  filter : Txid → Option WitnessOrd
  invalid_bundles : Finset BundleId
  unfiltered : MemContractState

namespace MemContract

/-- `ContractStateAccess::rights` — count of visible declarative
assignments at the given outpoint and type. -/
def rights (mc : MemContract) (outpoint : Outpoint) (ty : AssignmentType) : Nat :=
  ((((mc.unfiltered.rights.filter
      (fun assignment => assignment.seal.to_outpoint == outpoint &&
        assignment.opout.ty == ty)).filter
      (fun assignment => assignment.check_witness mc.filter)).filter
      (fun assignment => assignment.check_bundle mc.invalid_bundles))).length

/-- `ContractStateAccess::fungible` — visible fungible amounts at the
given outpoint and type. -/
def fungible (mc : MemContract) (outpoint : Outpoint) (ty : AssignmentType) :
    List RevealedValue :=
  (((mc.unfiltered.fungibles.filter
      (fun assignment => assignment.seal.to_outpoint == outpoint &&
        assignment.opout.ty == ty)).filter
      (fun assignment => assignment.check_witness mc.filter)).filter
      (fun assignment => assignment.check_bundle mc.invalid_bundles)).map
    (fun assignment => assignment.state)

/-- `ContractStateAccess::data` — visible structured payloads at the
given outpoint and type. -/
def dataRead (mc : MemContract) (outpoint : Outpoint) (ty : AssignmentType) :
    List RevealedData :=
  (((mc.unfiltered.data.filter
      (fun assignment => assignment.seal.to_outpoint == outpoint &&
        assignment.opout.ty == ty)).filter
      (fun assignment => assignment.check_witness mc.filter)).filter
      (fun assignment => assignment.check_bundle mc.invalid_bundles)).map
    (fun assignment => assignment.state)

/-- `ContractStateRead::rights_all`. -/
def rights_all (mc : MemContract) : List (OutputAssignment VoidState) :=
  (mc.unfiltered.rights.filter
    (fun assignment => assignment.check_witness mc.filter)).filter
    (fun assignment => assignment.check_bundle mc.invalid_bundles)

/-- `ContractStateRead::fungible_all`. -/
def fungible_all (mc : MemContract) : List (OutputAssignment RevealedValue) :=
  (mc.unfiltered.fungibles.filter
    (fun assignment => assignment.check_witness mc.filter)).filter
    (fun assignment => assignment.check_bundle mc.invalid_bundles)

/-- `ContractStateRead::data_all`. -/
def data_all (mc : MemContract) : List (OutputAssignment RevealedData) :=
  (mc.unfiltered.data.filter
    (fun assignment => assignment.check_witness mc.filter)).filter
    (fun assignment => assignment.check_bundle mc.invalid_bundles)

/-- The filtering closure built by `ContractStateAccess::global` for one
map entry: genesis items map to the genesis ordinal; transition items
are kept only when the filter knows their witness, with the filtered
ordinal completing the `GlobalOrd`. -/
def globalEntryOrd (mc : MemContract) (out : GlobalOut) : Option GlobalOrd :=
  match out.op_witness with
  | .Genesis => some (GlobalOrd.genesis out.index)
  | .Transition id ty =>
    (mc.filter id).map (fun ord => GlobalOrd.transition out.opid out.index ty out.nonce ord)

/-- The full constructor closure of `ContractStateAccess::global`:
iterate the `known` map in reverse (descending key) order, filter-map
through the witness filter, and truncate at the type's `limit`.  The
`known` list models the `BTreeMap` as its ascending association list. -/
def globalList (mc : MemContract) (ty : GlobalStateType) :
    Option (List (GlobalOrd × RevealedData)) :=
  (mc.unfiltered.global.lookup ty).map (fun state =>
    ((state.known.reverse.filterMap (fun p =>
        (mc.globalEntryOrd p.1).map (fun ord => (ord, p.2)))).take state.limit))

/-- Same iteration, keeping the static map key alongside each yielded
pair (proof-side instrumentation of `globalList`). -/
def globalListKeyed (mc : MemContract) (ty : GlobalStateType) :
    Option (List (GlobalOut × GlobalOrd × RevealedData)) :=
  (mc.unfiltered.global.lookup ty).map (fun state =>
    ((state.known.reverse.filterMap (fun p =>
        (mc.globalEntryOrd p.1).map (fun ord => (p.1, ord, p.2)))).take state.limit))

end MemContract

/-! ## The global-state iterator (`Iter` inside `ContractStateAccess::global`)

The lazy Rust iterator chain is modelled by the list of items it has
still to yield; the constructor closure is pure, so re-running it always
produces `full` (which is `globalList`). -/

structure GIter (α : Type) where
  full : List α
  iter : List α
  last : Option α
  depth : Nat
  deriving DecidableEq, Repr

namespace GIter

variable {α : Type}

/-- `Iter::swap`: run the constructor afresh, install the result as the
current iterator, and hand back the previous iterator. -/
def swap (s : GIter α) : List α × GIter α := (s.iter, { s with iter := s.full })

/-- `GlobalStateIter::size`: consumes (counts) the iterator returned by
`swap`, i.e. the previous current iterator. -/
def size (s : GIter α) : Nat × GIter α :=
  let p := s.swap
  (p.1.length, p.2)

/-- `GlobalStateIter::prev`: `last = iter.next(); depth += 1; last()`.
Note `depth` is incremented even when the iterator is exhausted. -/
def prev (s : GIter α) : Option α × GIter α :=
  let l := s.iter.head?
  (l, { s with iter := s.iter.tail, last := l, depth := s.depth + 1 })

/-- `GlobalStateIter::last`. -/
def lastItem (s : GIter α) : Option α := s.last

/-- `GlobalStateIter::reset`, transcribed literally: the `Less` branch
skips `depth.to_usize() - depth.to_usize()` elements of the current
iterator; the `Greater` branch swaps in a fresh iterator but then
overwrites it with the skipped remainder of the previous one; `depth`
itself is never rewritten. -/
def reset (s : GIter α) (depth : Nat) : GIter α :=
  match compare s.depth depth with
  | .lt => { s with iter := s.iter.drop (depth - depth) }
  | .eq => s
  | .gt =>
    let p := s.swap
    { p.2 with iter := p.1.drop depth }

/-- Construction of `Iter` in `ContractStateAccess::global`:
`iter: constructor(src), depth: ZERO, last: None`. -/
def mkIter (full : List α) : GIter α :=
  { full := full, iter := full, last := none, depth := 0 }

end GIter

/-! ## `MemState` (src/persistence/memory.rs) -/

inductive StateInconsistency where
  | UnknownContract (id : ContractId)
  deriving DecidableEq, Repr

/-- Point update of a function-modelled B-tree map (`insert`). -/
def mapInsert {V : Type} (m : Nat → Option V) (k : Nat) (v : V) :
    Nat → Option V :=
  fun q => if q = k then some v else m q

structure MemState where
  witnesses : Txid → Option WitnessOrd
  invalid_bundles : Finset BundleId
  contracts : ContractId → Option MemContractState

namespace MemState

/-- `StateWriteProvider::upsert_witness`. -/
def upsert_witness (s : MemState) (witness_id : Txid) (witness_ord : WitnessOrd) :
    MemState :=
  { s with witnesses := mapInsert s.witnesses witness_id witness_ord }

/-- `StateWriteProvider::update_bundle`: `valid` removes the bundle from
the invalid set, `!valid` pushes it. -/
def update_bundle (s : MemState) (bundle_id : BundleId) (valid : Bool) : MemState :=
  if valid then { s with invalid_bundles := s.invalid_bundles.erase bundle_id }
  else { s with invalid_bundles := insert bundle_id s.invalid_bundles }

/-- `CloneNoPersistence for MemState`: witnesses and contracts are
copied verbatim; `invalid_bundles` is re-initialised to `empty!()`. -/
def clone_no_persistence (s : MemState) : MemState :=
  { witnesses := s.witnesses, invalid_bundles := ∅, contracts := s.contracts }

end MemState

/-- The filter predicate of `StateReadProvider::contract_state`: a txid
is kept iff it appears as witness of some global item, right, fungible
or data assignment of this contract. -/
def MemContractState.references (st : MemContractState) (t : Txid) : Bool :=
  st.global.any (fun p => p.2.known.any (fun q => q.1.witness_id == some t))
    || st.rights.any (fun a => a.witness == some t)
    || st.fungibles.any (fun a => a.witness == some t)
    || st.data.any (fun a => a.witness == some t)

/-- `StateReadProvider::contract_state`: look the contract up, restrict
the witness-ordinal map to the txids the contract references, and pair
it with a snapshot of the invalid-bundle set.  The source materialises
the restricted map by iterating `witnesses`; pointwise its `get` is
exactly the function below. -/
def MemState.contract_state (s : MemState) (contract_id : ContractId) :
    Except StateInconsistency MemContract :=
  match s.contracts contract_id with
  | none => .error (.UnknownContract contract_id)
  | some unfiltered =>
    .ok { filter := fun t => if unfiltered.references t then s.witnesses t else none
          invalid_bundles := s.invalid_bundles
          unfiltered := unfiltered }

/-! ## `MemStash` (src/persistence/memory.rs)

Content-derived identifiers (`schema_id`, `contract_id`, `bundle_id`,
`lib.id()`) are abstracted as the object's own `body`; `witness_id()`
is, as in the source, the txid of the public witness. -/

structure Schema where
  body : Nat
  deriving DecidableEq, Repr

def Schema.schema_id (s : Schema) : SchemaId := s.body

structure Genesis where
  body : Nat
  deriving DecidableEq, Repr

def Genesis.contract_id (g : Genesis) : ContractId := g.body

structure TransitionBundle where
  body : Nat
  deriving DecidableEq, Repr

def TransitionBundle.bundle_id (b : TransitionBundle) : BundleId := b.body

/-- `SealWitness` (src/containers/anchors.rs); the MPC merkle block and
DBC proof are opaque here. -/
structure SealWitness where
  public : PubWitness
  merkle_block : Nat
  dbc_proof : Nat
  deriving DecidableEq, Repr

def SealWitness.witness_id (w : SealWitness) : Txid := w.public.txid

structure Lib where
  body : Nat
  deriving DecidableEq, Repr

def Lib.id (l : Lib) : LibId := l.body

inductive StashInconsistency where
  | LibAbsent (id : LibId)
  | SchemaAbsent (id : SchemaId)
  | ContractAbsent (id : ContractId)
  | BundleAbsent (id : BundleId)
  | WitnessAbsent (id : Txid)
  deriving DecidableEq, Repr

structure MemStash where
  schemata : SchemaId → Option Schema
  geneses : ContractId → Option Genesis
  bundles : BundleId → Option TransitionBundle
  witnesses : Txid → Option SealWitness
  secret_seals : Finset Nat
  libs : LibId → Option Lib

namespace MemStash

/-- `StashWriteProvider::replace_schema` (guarded by `contains_key`). -/
def replace_schema (s : MemStash) (schema : Schema) : Bool × MemStash :=
  let schema_id := schema.schema_id
  if (s.schemata schema_id).isSome then (false, s)
  else (true, { s with schemata := mapInsert s.schemata schema_id schema })

/-- `StashWriteProvider::replace_genesis` (unconditional insert; `new`
iff nothing was present). -/
def replace_genesis (s : MemStash) (genesis : Genesis) : Bool × MemStash :=
  let contract_id := genesis.contract_id
  let present := (s.geneses contract_id).isSome
  (!present, { s with geneses := mapInsert s.geneses contract_id genesis })

/-- `StashWriteProvider::replace_bundle`. -/
def replace_bundle (s : MemStash) (bundle : TransitionBundle) : Bool × MemStash :=
  let bundle_id := bundle.bundle_id
  let present := (s.bundles bundle_id).isSome
  (!present, { s with bundles := mapInsert s.bundles bundle_id bundle })

/-- `StashWriteProvider::replace_witness`. -/
def replace_witness (s : MemStash) (witness : SealWitness) : Bool × MemStash :=
  let witness_id := witness.witness_id
  let present := (s.witnesses witness_id).isSome
  (!present, { s with witnesses := mapInsert s.witnesses witness_id witness })

/-- `StashWriteProvider::replace_lib`. -/
def replace_lib (s : MemStash) (lib : Lib) : Bool × MemStash :=
  let present := (s.libs lib.id).isSome
  (!present, { s with libs := mapInsert s.libs lib.id lib })

/-- `StashWriteProvider::add_secret_seal`. -/
def add_secret_seal (s : MemStash) (seal_arg : Nat) : Bool × MemStash :=
  let present := seal_arg ∈ s.secret_seals
  (!present, { s with secret_seals := insert seal_arg s.secret_seals })

/-- `StashReadProvider::genesis`. -/
def genesis (s : MemStash) (contract_id : ContractId) :
    Except StashInconsistency Genesis :=
  match s.geneses contract_id with
  | some g => .ok g
  | none => .error (.ContractAbsent contract_id)

/-- `StashReadProvider::schema`. -/
def schema (s : MemStash) (schema_id : SchemaId) :
    Except StashInconsistency Schema :=
  match s.schemata schema_id with
  | some v => .ok v
  | none => .error (.SchemaAbsent schema_id)

/-- `StashReadProvider::bundle`. -/
def bundle (s : MemStash) (bundle_id : BundleId) :
    Except StashInconsistency TransitionBundle :=
  match s.bundles bundle_id with
  | some v => .ok v
  | none => .error (.BundleAbsent bundle_id)

/-- `StashReadProvider::witness`. -/
def witness (s : MemStash) (witness_id : Txid) :
    Except StashInconsistency SealWitness :=
  match s.witnesses witness_id with
  | some v => .ok v
  | none => .error (.WitnessAbsent witness_id)

/-- `StashReadProvider::lib`. -/
def lib (s : MemStash) (id : LibId) : Except StashInconsistency Lib :=
  match s.libs id with
  | some v => .ok v
  | none => .error (.LibAbsent id)

/-- `MemStash::in_memory`. -/
def in_memory : MemStash :=
  { schemata := fun _ => none, geneses := fun _ => none,
    bundles := fun _ => none, witnesses := fun _ => none,
    secret_seals := ∅, libs := fun _ => none }

end MemStash

/-! ## `MemIndex` (src/persistence/memory.rs) -/

structure ContractIndex where
  public_opouts : Finset Opout
  outpoint_opouts : List (OutputSeal × Finset Opout)
  deriving DecidableEq

inductive IndexInconsistency where
  | ContractAbsent (id : ContractId)
  | BundleAbsent (opid : OpId)
  | BundleWitnessUnknown (id : BundleId)
  | BundleContractUnknown (id : BundleId)
  | DistinctBundleContract (bundle_id : BundleId) (present expected : ContractId)
  | DistinctBundleOp (opid : OpId) (present expected : BundleId)
  deriving DecidableEq, Repr

structure MemIndex where
  op_bundle_children_index : OpId → Option (Finset BundleId)
  op_bundle_index : OpId → Option BundleId
  bundle_contract_index : BundleId → Option ContractId
  bundle_witness_index : BundleId → Option (Finset Txid)
  contract_index : ContractId → Option ContractIndex
  terminal_index : Nat → Option (Finset Opout)

namespace MemIndex

/-- The write half of `register_bundle`, performed after the
distinct-contract guard: push the txid into the bundle's witness set
(`entry().or_default().push()`), then insert the contract association,
with `new` iff no contract was previously recorded. -/
def register_bundle_write (s : MemIndex) (bundle_id : BundleId)
    (witness_id : Txid) (contract_id : ContractId) : Bool × MemIndex :=
  let wset := (s.bundle_witness_index bundle_id).getD ∅
  let s1 := { s with bundle_witness_index :=
                mapInsert s.bundle_witness_index bundle_id (insert witness_id wset) }
  let present2 := (s1.bundle_contract_index bundle_id).isSome
  (!present2, { s1 with bundle_contract_index :=
                  mapInsert s1.bundle_contract_index bundle_id contract_id })

/-- `IndexWriteProvider::register_bundle`: fail with
`DistinctBundleContract { present, expected }` when the bundle is
already bound to a different contract, otherwise record the witness and
the contract. -/
def register_bundle (s : MemIndex) (bundle_id : BundleId) (witness_id : Txid)
    (contract_id : ContractId) : Except IndexInconsistency (Bool × MemIndex) :=
  match s.bundle_contract_index bundle_id with
  | some alt =>
    if alt ≠ contract_id then
      .error (.DistinctBundleContract bundle_id alt contract_id)
    else .ok (s.register_bundle_write bundle_id witness_id contract_id)
  | none => .ok (s.register_bundle_write bundle_id witness_id contract_id)

/-- `MemIndex::in_memory`. -/
def in_memory : MemIndex :=
  { op_bundle_children_index := fun _ => none, op_bundle_index := fun _ => none,
    bundle_contract_index := fun _ => none, bundle_witness_index := fun _ => none,
    contract_index := fun _ => none, terminal_index := fun _ => none }

end MemIndex

/-! ## `AnyResolver` (src/indexers/any.rs) -/

inductive WitnessStatus where
  | Unresolved
  | Resolved (tx : Transaction) (ord : WitnessOrd)
  deriving DecidableEq, Repr

/-- `WitnessResolverError`, opaque here. -/
abbrev WitnessResolverError := Nat

/-- A witness bundle as carried inside a consignment (`WitnessBundle`,
src/containers/anchors.rs); anchor and transition bundle are opaque. -/
structure WitnessBundle where
  pub_witness : PubWitness
  anchor : Nat
  bundle : Nat
  deriving DecidableEq, Repr

structure Consignment where
  bundles : List WitnessBundle
  deriving DecidableEq, Repr

/-- `AnyResolver`: an inner resolver plus the per-consignment
transaction cache (`HashMap<Txid, Tx>`, modelled pointwise). -/
structure AnyResolver where
  inner : Txid → Except WitnessResolverError WitnessStatus
  consignment_txes : Txid → Option Transaction

namespace AnyResolver

/-- The `electrum_blocking` / `esplora_blocking` / `mempool_blocking`
constructors: wrap an inner resolver with an empty
(`Default::default()`) consignment cache. -/
def withInner (inner : Txid → Except WitnessResolverError WitnessStatus) :
    AnyResolver :=
  { inner := inner, consignment_txes := fun _ => none }

/-- `AnyResolver::add_consignment_txes`: extend the cache with every
transaction revealed inside a bundle's public witness, keyed by its
txid (`extend` = insert in iteration order). -/
def add_consignment_txes (r : AnyResolver) (consignment : Consignment) :
    AnyResolver :=
  let txes := consignment.bundles.filterMap (fun bw => bw.pub_witness.tx)
  { r with consignment_txes :=
      txes.foldl (fun m tx => mapInsert m tx.compute_txid tx) r.consignment_txes }

/-- `ResolveWitness for AnyResolver::resolve_witness`: a cached
consignment transaction is returned as `Resolved(tx, Tentative)`;
otherwise the inner resolver is consulted. -/
def resolve_witness (r : AnyResolver) (witness_id : Txid) :
    Except WitnessResolverError WitnessStatus :=
  match r.consignment_txes witness_id with
  | some tx => .ok (.Resolved tx .Tentative)
  | none => r.inner witness_id

end AnyResolver

/-! ## Claim C1 — `PubWitness` merge-reveal

The first test of `merge_reveal` is `if self == other`, and the crate's
`PartialEq for PubWitness` compares txids only; the second test fires
exactly when the txids differ.  The variant-replacement and
witness-length merging branches after them are therefore unreachable:
whenever the txids agree the function returns `Ok(())` leaving `self`
untouched. -/

theorem merge_reveal_never_changes (s other : PubWitness) :
    s.merge_reveal other = .ok s ∨
      s.merge_reveal other = .error (.txidMismatch s.txid other.txid) := by
  by_cases h : s.txid = other.txid
  · exact Or.inl (merge_reveal_same_txid s other h)
  · exact Or.inr (merge_reveal_txid_mismatch s other h)

/-- C1.  The claim requires that a `Txid` variant merged with a `Tx`
variant of the same txid is replaced by the `Tx` variant, and that two
`Tx` variants of the same txid merge their per-input witness data
keeping the longer witness.  The code does neither: the txid-based
`PartialEq` makes the first guard `self == other` true for every
merge-compatible pair, so `merge_reveal` returns `Ok` with `self`
unchanged.  Evaluated at the spec's own scenario S3: `self = Txid(7)`,
`other = Tx(t)` with `t.txid() = 7` leaves `self = Txid(7)`; and two
`Tx` values whose single inputs carry 10-byte and 25-byte witnesses
leave the 10-byte input in place. -/
theorem C1_merge_reveal_dead_code :
    (PubWitness.merge_reveal (.Txid 7)
        (.Tx { body := 7, input := [⟨0, [], 0, [[1, 2, 3]]⟩] })
      = .ok (.Txid 7))
    ∧ (PubWitness.merge_reveal
        (.Tx { body := 7, input := [⟨0, [], 0, [List.replicate 10 0]⟩] })
        (.Tx { body := 7, input := [⟨0, [], 0, [List.replicate 25 0]⟩] })
      = .ok (.Tx { body := 7, input := [⟨0, [], 0, [List.replicate 10 0]⟩] }))
    ∧ (PubWitness.Txid 7 : PubWitness) ≠ .Tx { body := 7, input := [⟨0, [], 0, [[1, 2, 3]]⟩] } := by
  exact ⟨rfl, rfl, by decide⟩

/-! ## Claim C2 — visibility of assignments in filtered reads -/

/-- The spec-side visibility condition, written from the spec's words:
an assignment is visible iff (a) its witness is `None`, or the filter
contains it with an ord other than `Archived`; and (b) its bundle id is
`None` or not a member of the invalid set. -/
def visibleSpec {σ : Type} (a : OutputAssignment σ)
    (F : Txid → Option WitnessOrd) (I : Finset BundleId) : Prop :=
  (a.witness = none ∨
      ∃ w o, a.witness = some w ∧ F w = some o ∧ o ≠ WitnessOrd.Archived)
    ∧ (a.bundle_id = none ∨ ∃ b, a.bundle_id = some b ∧ b ∉ I)

theorem check_and_check_iff_visibleSpec {σ : Type} (a : OutputAssignment σ)
    (F : Txid → Option WitnessOrd) (I : Finset BundleId) :
    (a.check_witness F && a.check_bundle I) = true ↔ visibleSpec a F I := by
  obtain ⟨op, sl, st, wit, bid⟩ := a
  simp only [OutputAssignment.check_witness, OutputAssignment.check_bundle, visibleSpec]
  cases wit with
  | none => cases bid <;> simp
  | some w =>
    cases hF : F w with
    | none => cases bid <;> simp [hF]
    | some o => cases o <;> cases bid <;> simp [hF]

instance {σ : Type} (a : OutputAssignment σ) (F : Txid → Option WitnessOrd)
    (I : Finset BundleId) : Decidable (visibleSpec a F I) :=
  decidable_of_iff _ (check_and_check_iff_visibleSpec a F I)

theorem checks_eq_decide_visibleSpec {σ : Type} (a : OutputAssignment σ)
    (F : Txid → Option WitnessOrd) (I : Finset BundleId) :
    (a.check_witness F && a.check_bundle I) = decide (visibleSpec a F I) := by
  cases hcb : (a.check_witness F && a.check_bundle I) with
  | true => exact (decide_eq_true ((check_and_check_iff_visibleSpec a F I).1 hcb)).symm
  | false =>
    refine (decide_eq_false ?_).symm
    intro hv
    have h2 := (check_and_check_iff_visibleSpec a F I).2 hv
    rw [hcb] at h2
    exact Bool.false_ne_true h2

/-- C2.  An assignment is visible in the six filtered reads exactly when
(a) its `witness` is `None`, or the filter contains it with an ord
other than `Archived`; and (b) its `bundle_id` is `None` or not in the
invalid set: membership in `rights_all` / `fungible_all` / `data_all`
is membership in the unfiltered collection plus the condition, and the
point reads `rights` / `fungible` / `data` count or project exactly the
type- and outpoint-matching assignments satisfying the condition. -/
theorem C2_filtered_visibility (mc : MemContract) :
    (∀ a, a ∈ mc.rights_all ↔
        a ∈ mc.unfiltered.rights ∧ visibleSpec a mc.filter mc.invalid_bundles)
    ∧ (∀ a, a ∈ mc.fungible_all ↔
        a ∈ mc.unfiltered.fungibles ∧ visibleSpec a mc.filter mc.invalid_bundles)
    ∧ (∀ a, a ∈ mc.data_all ↔
        a ∈ mc.unfiltered.data ∧ visibleSpec a mc.filter mc.invalid_bundles)
    ∧ (∀ out ty, mc.rights out ty =
        ((mc.unfiltered.rights.filter (fun a =>
            a.seal.to_outpoint == out && a.opout.ty == ty)).filter (fun a =>
            decide (visibleSpec a mc.filter mc.invalid_bundles))).length)
    ∧ (∀ out ty, mc.fungible out ty =
        (((mc.unfiltered.fungibles.filter (fun a =>
            a.seal.to_outpoint == out && a.opout.ty == ty)).filter (fun a =>
            decide (visibleSpec a mc.filter mc.invalid_bundles))).map
          (fun a => a.state)))
    ∧ (∀ out ty, mc.dataRead out ty =
        (((mc.unfiltered.data.filter (fun a =>
            a.seal.to_outpoint == out && a.opout.ty == ty)).filter (fun a =>
            decide (visibleSpec a mc.filter mc.invalid_bundles))).map
          (fun a => a.state))) := by
  have key : ∀ (σ : Type) (l : List (OutputAssignment σ)),
      (l.filter (fun a => a.check_witness mc.filter)).filter
          (fun a => a.check_bundle mc.invalid_bundles) =
        l.filter (fun a => decide (visibleSpec a mc.filter mc.invalid_bundles)) := by
    intro σ l
    rw [List.filter_filter]
    refine List.filter_congr ?_
    intro a _
    rw [Bool.and_comm]
    exact checks_eq_decide_visibleSpec a mc.filter mc.invalid_bundles
  refine ⟨?_, ?_, ?_, ?_, ?_, ?_⟩
  · intro a
    rw [MemContract.rights_all, key, List.mem_filter]
    simp [decide_eq_true_eq]
  · intro a
    rw [MemContract.fungible_all, key, List.mem_filter]
    simp [decide_eq_true_eq]
  · intro a
    rw [MemContract.data_all, key, List.mem_filter]
    simp [decide_eq_true_eq]
  · intro out ty
    rw [MemContract.rights, key]
  · intro out ty
    rw [MemContract.fungible, key]
  · intro out ty
    rw [MemContract.dataRead, key]

/-! ## Claim C3 — global-state iteration order

The iteration inside `ContractStateAccess::global` runs over the
`BTreeMap<GlobalOut, RevealedData>` in reverse key order, i.e. by the
*static* `GlobalOut` key.  The `GlobalOrd` attached to each yielded
item embeds the *current* witness ordinal from the filter, which the
static key cannot see, so the yielded sequence is descending in
`GlobalOrd` only when the filter's ordinals agree with the key order. -/

/-- Two transitions whose witness ordinals are ordered against their
map-key order: the key-descending iteration yields the
`Tentative`-ordered item before the `Mined`-ordered one. -/
def mcC3 : MemContract :=
  { filter := fun t =>
      if t = 100 then some (.Mined 1 1)
      else if t = 200 then some .Tentative else none
    invalid_bundles := ∅
    unfiltered :=
      { schema_id := 0
        contract_id := 0
        global := [(1, { known := [(⟨1, 0, .Transition 100 0, 0⟩, 10),
                                   (⟨2, 0, .Transition 200 0, 0⟩, 11)],
                         limit := 5 })]
        rights := []
        fungibles := []
        data := [] } }

/-- C3 counterexample.  In `mcC3` the two global items come from
distinct transitions (opids 1 and 2, witnesses 100 and 200) whose
filtered ordinals compare `Tentative < Mined(1,1)`; the claim demands
that the `Mined` item be yielded first, but the iteration yields the
`Tentative` item first (its `GlobalOrd` is strictly smaller than the
second item's). -/
theorem C3_global_order_counterexample :
    MemContract.globalList mcC3 1 =
      some [(.transition 2 0 0 0 .Tentative, 11),
            (.transition 1 0 0 0 (.Mined 1 1), 10)]
    ∧ WitnessOrd.ltb .Tentative (.Mined 1 1) = true
    ∧ GlobalOrd.ltb (.transition 2 0 0 0 .Tentative)
        (.transition 1 0 0 0 (.Mined 1 1)) = true := by
  exact ⟨rfl, rfl, rfl⟩

theorem GlobalOut.ltb_tag_zero {x y : GlobalOut} (h : GlobalOut.ltb y x = true)
    (hx : x.tag = 0) : y.tag = 0 := by
  by_contra hy
  have hpos : 0 < y.tag := Nat.pos_of_ne_zero hy
  have hcmp : compare y.tag x.tag = .gt := by
    rw [hx, Nat.compare_eq_gt]
    exact hpos
  rw [GlobalOut.ltb, GlobalOut.cmp, hcmp] at h
  exact Bool.noConfusion h

theorem globalEntryOrd_mem_eq {mc : MemContract} {p : GlobalOut × RevealedData}
    {t : GlobalOut × GlobalOrd × RevealedData}
    (h : (mc.globalEntryOrd p.1).map (fun ord => (p.1, ord, p.2)) = some t) :
    t.1 = p.1 ∧ t.2.2 = p.2 ∧ mc.globalEntryOrd p.1 = some t.2.1 := by
  cases he : mc.globalEntryOrd p.1 with
  | none => rw [he] at h; exact Option.noConfusion h
  | some ord =>
    rw [he] at h
    have h2 : some (p.1, ord, p.2) = some t := h
    cases h2
    exact ⟨rfl, rfl, rfl⟩

theorem globalEntryOrd_isGenesis {mc : MemContract} {k : GlobalOut}
    {ord : GlobalOrd} (h : mc.globalEntryOrd k = some ord) :
    (ord.isGenesis = true ↔ k.tag = 0) := by
  unfold MemContract.globalEntryOrd at h
  cases hw : k.op_witness with
  | Genesis =>
    rw [hw] at h
    have h2 : some (GlobalOrd.genesis k.index) = some ord := h
    cases h2
    simp [GlobalOrd.isGenesis, GlobalOut.tag, hw]
  | Transition id ty =>
    rw [hw] at h
    have h3 : (mc.filter id).map
        (fun o => GlobalOrd.transition k.opid k.index ty k.nonce o) = some ord := h
    cases hf : mc.filter id with
    | none => rw [hf] at h3; exact Option.noConfusion h3
    | some o =>
      rw [hf] at h3
      have h4 : some (GlobalOrd.transition k.opid k.index ty k.nonce o) = some ord := h3
      cases h4
      simp [GlobalOrd.isGenesis, GlobalOut.tag, hw]

/-- Every element of the keyed iteration comes from a `known` entry,
with its ordinal produced by the filter closure. -/
theorem mem_globalListKeyed {mc : MemContract} {ty : GlobalStateType}
    {st : MemGlobalState} {L : List (GlobalOut × GlobalOrd × RevealedData)}
    (hlk : mc.unfiltered.global.lookup ty = some st)
    (hL : MemContract.globalListKeyed mc ty = some L) :
    ∀ t ∈ L, (t.1, t.2.2) ∈ st.known ∧ mc.globalEntryOrd t.1 = some t.2.1 := by
  intro t ht
  rw [MemContract.globalListKeyed, hlk] at hL
  injection hL with hL2
  rw [← hL2] at ht
  have ht2 := (List.take_sublist _ _).subset ht
  rcases List.mem_filterMap.1 ht2 with ⟨p, hp, hgp⟩
  rcases globalEntryOrd_mem_eq hgp with ⟨h1, h2, h3⟩
  refine ⟨?_, ?_⟩
  · rw [h1, h2]
    exact List.mem_reverse.1 hp
  · rw [h1]
    exact h3

/-- C3, amended.  The iterator yields pairs in strictly descending
order of the static `GlobalOut` map key; consequently genesis items
come last; and the claim's descending-`GlobalOrd` property holds
whenever the filtered witness ordinals order the items consistently
with their map keys (it fails otherwise, see the counterexample: the
`GlobalOrd` embeds the mutable witness ordinal, which the static
iteration key cannot track). -/
theorem C3_global_order_amended (mc : MemContract) (ty : GlobalStateType)
    (st : MemGlobalState)
    (hlk : mc.unfiltered.global.lookup ty = some st)
    (hsorted : st.known.Pairwise (fun p q => GlobalOut.ltb p.1 q.1 = true)) :
    ∃ L, MemContract.globalListKeyed mc ty = some L
      ∧ MemContract.globalList mc ty = some (L.map (fun t => t.2))
      ∧ L.Pairwise (fun x y => GlobalOut.ltb y.1 x.1 = true)
      ∧ L.Pairwise (fun x y => x.2.1.isGenesis = true → y.2.1.isGenesis = true)
      ∧ ((∀ p q o1 o2, p ∈ st.known → q ∈ st.known →
            GlobalOut.ltb p.1 q.1 = true →
            mc.globalEntryOrd p.1 = some o1 → mc.globalEntryOrd q.1 = some o2 →
            GlobalOrd.ltb o1 o2 = true) →
          L.Pairwise (fun x y => GlobalOrd.ltb y.2.1 x.2.1 = true)) := by
  refine ⟨(st.known.reverse.filterMap (fun p =>
      (mc.globalEntryOrd p.1).map (fun ord => (p.1, ord, p.2)))).take st.limit,
    ?_, ?_, ?_, ?_, ?_⟩
  case _ =>
    rw [MemContract.globalListKeyed, hlk]
    rfl
  case _ =>
    rw [MemContract.globalList, hlk]
    have hfun : (fun p : GlobalOut × RevealedData =>
        ((mc.globalEntryOrd p.1).map (fun ord => (p.1, ord, p.2))).map
          (fun t : GlobalOut × GlobalOrd × RevealedData => t.2)) =
        (fun p : GlobalOut × RevealedData =>
          (mc.globalEntryOrd p.1).map (fun ord => (ord, p.2))) := by
      funext p
      cases hgO : mc.globalEntryOrd p.1 <;> simp [hgO]
    have hlist : ((st.known.reverse.filterMap (fun p =>
        (mc.globalEntryOrd p.1).map (fun ord => (p.1, ord, p.2)))).take st.limit).map
          (fun t => t.2) =
        (st.known.reverse.filterMap (fun p =>
          (mc.globalEntryOrd p.1).map (fun ord => (ord, p.2)))).take st.limit := by
      rw [List.map_take, List.map_filterMap, hfun]
    exact congrArg some hlist.symm
  all_goals
    have hpw : (st.known.reverse.filterMap (fun p =>
        (mc.globalEntryOrd p.1).map (fun ord => (p.1, ord, p.2)))).Pairwise
          (fun x y => GlobalOut.ltb y.1 x.1 = true) := by
      refine List.pairwise_filterMap.2 ?_
      have hrev : st.known.reverse.Pairwise
          (fun x y => GlobalOut.ltb y.1 x.1 = true) :=
        List.pairwise_reverse.mpr hsorted
      refine hrev.imp ?_
      intro a b hab
      intro x hx y hy
      rcases globalEntryOrd_mem_eq (Option.mem_def.1 hx) with ⟨hx1, _, _⟩
      rcases globalEntryOrd_mem_eq (Option.mem_def.1 hy) with ⟨hy1, _, _⟩
      rw [hx1, hy1]
      exact hab
    have hL : (st.known.reverse.filterMap (fun p =>
        (mc.globalEntryOrd p.1).map (fun ord => (p.1, ord, p.2)))).take st.limit |>.Pairwise
          (fun x y => GlobalOut.ltb y.1 x.1 = true) :=
      hpw.sublist (List.take_sublist _ _)
    have hKeyed : MemContract.globalListKeyed mc ty =
        some ((st.known.reverse.filterMap (fun p =>
          (mc.globalEntryOrd p.1).map (fun ord => (p.1, ord, p.2)))).take st.limit) := by
      rw [MemContract.globalListKeyed, hlk]
      rfl
    have hmem := mem_globalListKeyed hlk hKeyed
  case _ => exact hL
  case _ =>
    refine hL.imp_of_mem ?_
    intro x y hxL hyL hkey hxg
    rcases hmem x hxL with ⟨_, hEx⟩
    rcases hmem y hyL with ⟨_, hEy⟩
    have htagx : x.1.tag = 0 := (globalEntryOrd_isGenesis hEx).1 hxg
    have htagy : y.1.tag = 0 := GlobalOut.ltb_tag_zero hkey htagx
    exact (globalEntryOrd_isGenesis hEy).2 htagy
  case _ =>
    intro hmono
    refine hL.imp_of_mem ?_
    intro x y hxL hyL hkey
    rcases hmem x hxL with ⟨hPx, hEx⟩
    rcases hmem y hyL with ⟨hPy, hEy⟩
    exact hmono (y.1, y.2.2) (x.1, x.2.2) y.2.1 x.2.1 hPy hPx hkey hEy hEx

/-- Witness for the amended C3 theorem at the concrete contract `mcC3`. -/
theorem C3_global_order_amended_witness :
    mcC3.unfiltered.global.lookup 1 =
      some { known := [(⟨1, 0, .Transition 100 0, 0⟩, 10),
                       (⟨2, 0, .Transition 200 0, 0⟩, 11)], limit := 5 }
    ∧ List.Pairwise (fun p q => GlobalOut.ltb p.1 q.1 = true)
        ([(⟨1, 0, .Transition 100 0, 0⟩, 10),
          (⟨2, 0, .Transition 200 0, 0⟩, 11)] :
          List (GlobalOut × RevealedData))
    ∧ (∃ L, MemContract.globalListKeyed mcC3 1 = some L
        ∧ MemContract.globalList mcC3 1 = some (L.map (fun t => t.2))
        ∧ L.Pairwise (fun x y => GlobalOut.ltb y.1 x.1 = true)
        ∧ L.Pairwise (fun x y => x.2.1.isGenesis = true → y.2.1.isGenesis = true)
        ∧ ((∀ p q o1 o2,
              p ∈ ({ known := [(⟨1, 0, .Transition 100 0, 0⟩, 10),
                               (⟨2, 0, .Transition 200 0, 0⟩, 11)],
                     limit := 5 } : MemGlobalState).known →
              q ∈ ({ known := [(⟨1, 0, .Transition 100 0, 0⟩, 10),
                               (⟨2, 0, .Transition 200 0, 0⟩, 11)],
                     limit := 5 } : MemGlobalState).known →
              GlobalOut.ltb p.1 q.1 = true →
              mcC3.globalEntryOrd p.1 = some o1 →
              mcC3.globalEntryOrd q.1 = some o2 →
              GlobalOrd.ltb o1 o2 = true) →
            L.Pairwise (fun x y => GlobalOrd.ltb y.2.1 x.2.1 = true))) :=
  ⟨rfl, by decide, C3_global_order_amended mcC3 1 _ rfl (by decide)⟩

/-! ## Claim C4 — the `GlobalStateIter` cursor operations

`reset` never rewinds: its `Less` branch skips `depth - depth = 0`
elements, and its `Greater` branch drops elements from the *old*,
already-advanced iterator (the fresh one produced by `swap` is
immediately overwritten), while `depth` itself is never rewritten.
`size` counts the remainder of the current iterator (resetting it as a
side effect) rather than the visible item count. -/

/-- C4.  On the three-item iteration `[0, 1, 2]`: after two `prev`
calls, `reset(0)` followed by `prev` yields item `2`, whereas the claim
demands the 1st pair of the full iteration, i.e. `0`; and after the two
`prev` calls `size()` reports `1` instead of the visible count `3`. -/
theorem C4_reset_does_not_rewind :
    ((((GIter.mkIter ([0, 1, 2] : List Nat)).prev.2.prev.2).reset 0).prev.1 = some 2)
    ∧ (([0, 1, 2] : List Nat).head? = some 0)
    ∧ (((GIter.mkIter ([0, 1, 2] : List Nat)).prev.2.prev.2).size.1 = 1)
    ∧ (([0, 1, 2] : List Nat).length = 3)
    ∧ ((some 2 : Option Nat) ≠ some 0) ∧ (1 : Nat) ≠ 3 := by
  decide

/-! ## Claim C5 — content-addressed `replace_*` idempotence -/

theorem mapInsert_self {V : Type} (m : Nat → Option V) (k : Nat) (v : V) :
    mapInsert (mapInsert m k v) k v = mapInsert m k v := by
  funext q
  by_cases h : q = k <;> simp [mapInsert, h]

/-- C5.  For each store collection, a first `replace_*` of a fresh
object returns `true`, an immediately repeated `replace_*` of the same
object returns `false`, the keyed read returns the object, and the
repeated insertion leaves the store unchanged. -/
theorem C5_replace_new_then_existing
    (s : MemStash) (g : Genesis) (sc : Schema) (b : TransitionBundle)
    (w : SealWitness) (l : Lib)
    (hg : s.geneses g.contract_id = none)
    (hsc : s.schemata sc.schema_id = none)
    (hb : s.bundles b.bundle_id = none)
    (hw : s.witnesses w.witness_id = none)
    (hl : s.libs l.id = none) :
    ((s.replace_genesis g).1 = true
      ∧ ((s.replace_genesis g).2.replace_genesis g).1 = false
      ∧ (s.replace_genesis g).2.genesis g.contract_id = .ok g
      ∧ ((s.replace_genesis g).2.replace_genesis g).2 = (s.replace_genesis g).2)
    ∧ ((s.replace_schema sc).1 = true
      ∧ ((s.replace_schema sc).2.replace_schema sc).1 = false
      ∧ (s.replace_schema sc).2.schema sc.schema_id = .ok sc
      ∧ ((s.replace_schema sc).2.replace_schema sc).2 = (s.replace_schema sc).2)
    ∧ ((s.replace_bundle b).1 = true
      ∧ ((s.replace_bundle b).2.replace_bundle b).1 = false
      ∧ (s.replace_bundle b).2.bundle b.bundle_id = .ok b
      ∧ ((s.replace_bundle b).2.replace_bundle b).2 = (s.replace_bundle b).2)
    ∧ ((s.replace_witness w).1 = true
      ∧ ((s.replace_witness w).2.replace_witness w).1 = false
      ∧ (s.replace_witness w).2.witness w.witness_id = .ok w
      ∧ ((s.replace_witness w).2.replace_witness w).2 = (s.replace_witness w).2)
    ∧ ((s.replace_lib l).1 = true
      ∧ ((s.replace_lib l).2.replace_lib l).1 = false
      ∧ (s.replace_lib l).2.lib l.id = .ok l
      ∧ ((s.replace_lib l).2.replace_lib l).2 = (s.replace_lib l).2) := by
  refine ⟨⟨?_, ?_, ?_, ?_⟩, ⟨?_, ?_, ?_, ?_⟩, ⟨?_, ?_, ?_, ?_⟩,
    ⟨?_, ?_, ?_, ?_⟩, ⟨?_, ?_, ?_, ?_⟩⟩
  · simp [MemStash.replace_genesis, hg]
  · simp [MemStash.replace_genesis, mapInsert]
  · simp [MemStash.replace_genesis, MemStash.genesis, mapInsert]
  · simp [MemStash.replace_genesis, mapInsert_self]
  · simp [MemStash.replace_schema, hsc]
  · simp [MemStash.replace_schema, hsc, mapInsert]
  · simp [MemStash.replace_schema, hsc, MemStash.schema, mapInsert]
  · simp [MemStash.replace_schema, hsc, mapInsert]
  · simp [MemStash.replace_bundle, hb]
  · simp [MemStash.replace_bundle, mapInsert]
  · simp [MemStash.replace_bundle, MemStash.bundle, mapInsert]
  · simp [MemStash.replace_bundle, mapInsert_self]
  · simp [MemStash.replace_witness, hw]
  · simp [MemStash.replace_witness, mapInsert]
  · simp [MemStash.replace_witness, MemStash.witness, mapInsert]
  · simp [MemStash.replace_witness, mapInsert_self]
  · simp [MemStash.replace_lib, hl]
  · simp [MemStash.replace_lib, mapInsert]
  · simp [MemStash.replace_lib, MemStash.lib, mapInsert]
  · simp [MemStash.replace_lib, mapInsert_self]

/-- Witness for C5 on the empty in-memory stash with five fresh
objects. -/
theorem C5_replace_new_then_existing_witness :
    (MemStash.in_memory.geneses (Genesis.contract_id ⟨0⟩) = none
      ∧ MemStash.in_memory.schemata (Schema.schema_id ⟨1⟩) = none
      ∧ MemStash.in_memory.bundles (TransitionBundle.bundle_id ⟨2⟩) = none
      ∧ MemStash.in_memory.witnesses (SealWitness.witness_id ⟨.Txid 3, 0, 0⟩) = none
      ∧ MemStash.in_memory.libs (Lib.id ⟨4⟩) = none)
    ∧ ((MemStash.in_memory.replace_genesis ⟨0⟩).1 = true
      ∧ ((MemStash.in_memory.replace_genesis ⟨0⟩).2.replace_genesis ⟨0⟩).1 = false
      ∧ (MemStash.in_memory.replace_genesis ⟨0⟩).2.genesis
          (Genesis.contract_id ⟨0⟩) = .ok ⟨0⟩
      ∧ ((MemStash.in_memory.replace_genesis ⟨0⟩).2.replace_genesis ⟨0⟩).2 =
          (MemStash.in_memory.replace_genesis ⟨0⟩).2)
    ∧ ((MemStash.in_memory.replace_schema ⟨1⟩).1 = true
      ∧ ((MemStash.in_memory.replace_schema ⟨1⟩).2.replace_schema ⟨1⟩).1 = false
      ∧ (MemStash.in_memory.replace_schema ⟨1⟩).2.schema
          (Schema.schema_id ⟨1⟩) = .ok ⟨1⟩
      ∧ ((MemStash.in_memory.replace_schema ⟨1⟩).2.replace_schema ⟨1⟩).2 =
          (MemStash.in_memory.replace_schema ⟨1⟩).2)
    ∧ ((MemStash.in_memory.replace_bundle ⟨2⟩).1 = true
      ∧ ((MemStash.in_memory.replace_bundle ⟨2⟩).2.replace_bundle ⟨2⟩).1 = false
      ∧ (MemStash.in_memory.replace_bundle ⟨2⟩).2.bundle
          (TransitionBundle.bundle_id ⟨2⟩) = .ok ⟨2⟩
      ∧ ((MemStash.in_memory.replace_bundle ⟨2⟩).2.replace_bundle ⟨2⟩).2 =
          (MemStash.in_memory.replace_bundle ⟨2⟩).2)
    ∧ ((MemStash.in_memory.replace_witness ⟨.Txid 3, 0, 0⟩).1 = true
      ∧ ((MemStash.in_memory.replace_witness ⟨.Txid 3, 0, 0⟩).2.replace_witness
          ⟨.Txid 3, 0, 0⟩).1 = false
      ∧ (MemStash.in_memory.replace_witness ⟨.Txid 3, 0, 0⟩).2.witness
          (SealWitness.witness_id ⟨.Txid 3, 0, 0⟩) = .ok ⟨.Txid 3, 0, 0⟩
      ∧ ((MemStash.in_memory.replace_witness ⟨.Txid 3, 0, 0⟩).2.replace_witness
          ⟨.Txid 3, 0, 0⟩).2 = (MemStash.in_memory.replace_witness ⟨.Txid 3, 0, 0⟩).2)
    ∧ ((MemStash.in_memory.replace_lib ⟨4⟩).1 = true
      ∧ ((MemStash.in_memory.replace_lib ⟨4⟩).2.replace_lib ⟨4⟩).1 = false
      ∧ (MemStash.in_memory.replace_lib ⟨4⟩).2.lib (Lib.id ⟨4⟩) = .ok ⟨4⟩
      ∧ ((MemStash.in_memory.replace_lib ⟨4⟩).2.replace_lib ⟨4⟩).2 =
          (MemStash.in_memory.replace_lib ⟨4⟩).2) :=
  ⟨⟨rfl, rfl, rfl, rfl, rfl⟩,
    C5_replace_new_then_existing MemStash.in_memory ⟨0⟩ ⟨1⟩ ⟨2⟩ ⟨.Txid 3, 0, 0⟩ ⟨4⟩
      rfl rfl rfl rfl rfl⟩

/-! ## Claim C6 — conflicting bundle registration -/

/-- C6.  A first `register_bundle(B, T1, C1)` on a bundle with no
recorded contract returns `true`, records `T1` under the bundle's
witness set and `C1` as the bundle's contract; a subsequent
`register_bundle(B, T2, C2)` with `C2 ≠ C1` fails with
`DistinctBundleContract { present = C1, expected = C2 }` (the error is
raised before any mutation); and re-registering with the same contract
succeeds returning `false`. -/
theorem C6_register_bundle_conflict (ix : MemIndex) (B T1 T2 T3 : Nat)
    (C1 C2 : Nat) (hfree : ix.bundle_contract_index B = none)
    (hne : C1 ≠ C2) :
    ∃ ix1, ix.register_bundle B T1 C1 = .ok (true, ix1)
      ∧ ix1.bundle_contract_index B = some C1
      ∧ (∃ wset, ix1.bundle_witness_index B = some wset ∧ T1 ∈ wset)
      ∧ ix1.register_bundle B T2 C2 =
          .error (.DistinctBundleContract B C1 C2)
      ∧ ∃ ix2, ix1.register_bundle B T3 C1 = .ok (false, ix2) := by
  refine ⟨(ix.register_bundle_write B T1 C1).2, ?_, ?_, ?_, ?_, ?_⟩
  · rw [MemIndex.register_bundle, hfree]
    have h1 : (ix.register_bundle_write B T1 C1).1 = true := by
      simp [MemIndex.register_bundle_write, hfree]
    rw [← h1]
  · simp [MemIndex.register_bundle_write, mapInsert]
  · refine ⟨insert T1 ((ix.bundle_witness_index B).getD ∅), ?_, ?_⟩
    · simp [MemIndex.register_bundle_write, mapInsert]
    · exact Finset.mem_insert_self T1 _
  · have hc : (ix.register_bundle_write B T1 C1).2.bundle_contract_index B = some C1 := by
      simp [MemIndex.register_bundle_write, mapInsert]
    rw [MemIndex.register_bundle, hc]
    simp only [ne_eq, ite_not]
    simp [hne]
  · have hc : (ix.register_bundle_write B T1 C1).2.bundle_contract_index B = some C1 := by
      simp [MemIndex.register_bundle_write, mapInsert]
    refine ⟨((ix.register_bundle_write B T1 C1).2.register_bundle_write B T3 C1).2, ?_⟩
    rw [MemIndex.register_bundle, hc]
    have h2 : ((ix.register_bundle_write B T1 C1).2.register_bundle_write B T3 C1).1 = false := by
      simp [MemIndex.register_bundle_write, mapInsert, hc]
    simp [h2, Prod.ext_iff]

/-- Witness for C6 on the empty in-memory index: bundle 0, txids 1 and
2, contracts 3 and 4. -/
theorem C6_register_bundle_conflict_witness :
    MemIndex.in_memory.bundle_contract_index 0 = none ∧ (3 : Nat) ≠ 4
    ∧ (∃ ix1, MemIndex.in_memory.register_bundle 0 1 3 = .ok (true, ix1)
        ∧ ix1.bundle_contract_index 0 = some 3
        ∧ (∃ wset, ix1.bundle_witness_index 0 = some wset ∧ 1 ∈ wset)
        ∧ ix1.register_bundle 0 2 4 = .error (.DistinctBundleContract 0 3 4)
        ∧ ∃ ix2, ix1.register_bundle 0 1 3 = .ok (false, ix2)) :=
  ⟨rfl, by decide,
    C6_register_bundle_conflict MemIndex.in_memory 0 1 2 1 3 4 rfl (by decide)⟩

/-! ## Claim C7 — the `AnyResolver` consignment cache -/

theorem PubWitness.tx_eq_some {pw : PubWitness} {t : Transaction}
    (h : pw.tx = some t) : pw = .Tx t := by
  cases pw with
  | Txid id => exact Option.noConfusion h
  | Tx t2 =>
    have h2 : some t2 = some t := h
    cases h2
    rfl

theorem foldl_mapInsert_not_mem (l : List Transaction)
    (m : Nat → Option Transaction) (k : Nat)
    (h : ∀ tx ∈ l, tx.compute_txid ≠ k) :
    (l.foldl (fun m2 tx => mapInsert m2 tx.compute_txid tx) m) k = m k := by
  induction l generalizing m with
  | nil => rfl
  | cons a t ih =>
    rw [List.foldl_cons, ih _ (fun tx htx => h tx (List.mem_cons_of_mem a htx))]
    simp only [mapInsert]
    rw [if_neg (Ne.symm (h a (List.mem_cons_self a t)))]

theorem foldl_mapInsert_mem (l : List Transaction)
    (m : Nat → Option Transaction) (tx : Transaction) (hmem : tx ∈ l)
    (huniq : ∀ tx2 ∈ l, tx2.compute_txid = tx.compute_txid → tx2 = tx) :
    (l.foldl (fun m2 t2 => mapInsert m2 t2.compute_txid t2) m)
      tx.compute_txid = some tx := by
  induction l generalizing m with
  | nil => cases hmem
  | cons a t ih =>
    rw [List.foldl_cons]
    by_cases ht : tx ∈ t
    · exact ih _ ht (fun tx2 h2 he => huniq tx2 (List.mem_cons_of_mem a h2) he)
    · have hax : a = tx := by
        rcases List.mem_cons.1 hmem with h | h
        · exact h.symm
        · exact absurd h ht
      have hnone : ∀ tx2 ∈ t, tx2.compute_txid ≠ tx.compute_txid := by
        intro tx2 h2 he
        have := huniq tx2 (List.mem_cons_of_mem a h2) he
        rw [this] at h2
        exact ht h2
      rw [foldl_mapInsert_not_mem t _ _ hnone]
      simp [mapInsert, hax]

/-- C7.  A resolver built over any inner indexer and seeded with a
consignment revealing a transaction `tx` resolves `tx.txid()` to
`Resolved(tx, Tentative)` straight from the cache (the inner resolver
does not participate: the result is independent of it), while any txid
not revealed by the consignment is delegated verbatim to the inner
resolver. -/
theorem C7_resolver_consignment_cache
    (inner : Txid → Except WitnessResolverError WitnessStatus)
    (c : Consignment) (tx : Transaction) (bw : WitnessBundle)
    (hmem : bw ∈ c.bundles) (htx : bw.pub_witness = .Tx tx)
    (huniq : ∀ bw2 ∈ c.bundles, ∀ tx2, bw2.pub_witness = .Tx tx2 →
        tx2.compute_txid = tx.compute_txid → tx2 = tx) :
    ((AnyResolver.withInner inner).add_consignment_txes c).resolve_witness
        tx.compute_txid = .ok (.Resolved tx .Tentative)
    ∧ (∀ U, (∀ bw2 ∈ c.bundles, ∀ tx2, bw2.pub_witness = .Tx tx2 →
          tx2.compute_txid ≠ U) →
        ((AnyResolver.withInner inner).add_consignment_txes c).resolve_witness U
          = inner U) := by
  constructor
  · have hcache : ((AnyResolver.withInner inner).add_consignment_txes
        c).consignment_txes tx.compute_txid = some tx := by
      refine foldl_mapInsert_mem _ _ tx ?_ ?_
      · refine List.mem_filterMap.2 ⟨bw, hmem, ?_⟩
        rw [htx]
        rfl
      · intro tx2 h2 he
        rcases List.mem_filterMap.1 h2 with ⟨bw2, hb2, hpw2⟩
        exact huniq bw2 hb2 tx2 (PubWitness.tx_eq_some hpw2) he
    rw [AnyResolver.resolve_witness, hcache]
  · intro U hU
    have hcache : ((AnyResolver.withInner inner).add_consignment_txes
        c).consignment_txes U = none := by
      have h2 : ∀ tx2 ∈ c.bundles.filterMap (fun bw2 => bw2.pub_witness.tx),
          tx2.compute_txid ≠ U := by
        intro tx2 h2
        rcases List.mem_filterMap.1 h2 with ⟨bw2, hb2, hpw2⟩
        exact hU bw2 hb2 tx2 (PubWitness.tx_eq_some hpw2)
      exact foldl_mapInsert_not_mem _ _ _ h2
    rw [AnyResolver.resolve_witness, hcache]
    rfl

/-- Witness for C7: a consignment with one bundle revealing the
transaction `⟨9, []⟩` (txid 9), over an inner resolver that always
fails; txid 9 hits the cache, txid 5 is delegated. -/
theorem C7_resolver_consignment_cache_witness :
    ((⟨.Tx ⟨9, []⟩, 0, 0⟩ : WitnessBundle) ∈
        (Consignment.mk [⟨.Tx ⟨9, []⟩, 0, 0⟩]).bundles)
    ∧ ((⟨.Tx ⟨9, []⟩, 0, 0⟩ : WitnessBundle).pub_witness = .Tx ⟨9, []⟩)
    ∧ (∀ bw2 ∈ (Consignment.mk [⟨.Tx ⟨9, []⟩, 0, 0⟩]).bundles, ∀ tx2,
        bw2.pub_witness = .Tx tx2 →
        tx2.compute_txid = (Transaction.mk 9 []).compute_txid →
        tx2 = Transaction.mk 9 [])
    ∧ ((AnyResolver.withInner (fun _ => .error 0)).add_consignment_txes
          (Consignment.mk [⟨.Tx ⟨9, []⟩, 0, 0⟩])).resolve_witness
        (Transaction.mk 9 []).compute_txid =
        .ok (.Resolved ⟨9, []⟩ .Tentative)
    ∧ (∀ U, (∀ bw2 ∈ (Consignment.mk [⟨.Tx ⟨9, []⟩, 0, 0⟩]).bundles, ∀ tx2,
          bw2.pub_witness = .Tx tx2 → tx2.compute_txid ≠ U) →
        ((AnyResolver.withInner (fun _ => .error 0)).add_consignment_txes
            (Consignment.mk [⟨.Tx ⟨9, []⟩, 0, 0⟩])).resolve_witness U =
          (fun _ => .error 0 :
            Txid → Except WitnessResolverError WitnessStatus) U) := by
  have huniq : ∀ bw2 ∈ (Consignment.mk [⟨.Tx ⟨9, []⟩, 0, 0⟩]).bundles, ∀ tx2,
      bw2.pub_witness = .Tx tx2 →
      tx2.compute_txid = (Transaction.mk 9 []).compute_txid →
      tx2 = Transaction.mk 9 [] := by
    intro bw2 hb2 tx2 he _
    have hb3 : bw2 = ⟨.Tx ⟨9, []⟩, 0, 0⟩ := List.mem_singleton.1 hb2
    rw [hb3] at he
    have he2 : PubWitness.Tx ⟨9, []⟩ = PubWitness.Tx tx2 := he
    cases he2
    rfl
  have hmain := C7_resolver_consignment_cache (fun _ => .error 0)
    (Consignment.mk [⟨.Tx ⟨9, []⟩, 0, 0⟩]) ⟨9, []⟩ ⟨.Tx ⟨9, []⟩, 0, 0⟩
    (List.mem_singleton.2 rfl) rfl huniq
  exact ⟨List.mem_singleton.2 rfl, rfl, huniq, hmain.1, hmain.2⟩

/-! ## Claim C8 — invalidating and revalidating a bundle -/

theorem check_bundle_insert_bool {σ : Type} (a : OutputAssignment σ)
    (B : BundleId) (I : Finset BundleId) :
    a.check_bundle (insert B I) = (a.check_bundle I && !(a.bundle_id == some B)) := by
  cases hb : a.bundle_id with
  | none => simp [OutputAssignment.check_bundle, hb]
  | some b =>
    by_cases h1 : b = B <;> by_cases h2 : b ∈ I <;>
      simp [OutputAssignment.check_bundle, hb, Finset.mem_insert, h1, h2]

theorem length_filter_split {β : Type} (l : List β) (p q : β → Bool) :
    (l.filter p).length = (l.filter (fun b => p b && q b)).length
      + (l.filter (fun b => p b && !q b)).length := by
  induction l with
  | nil => rfl
  | cons a t ih =>
    by_cases hp : p a = true
    · by_cases hq : q a = true <;> simp [List.filter_cons, hp, hq, ih] <;> omega
    · have hp2 : p a = false := by revert hp; cases p a <;> simp
      simp [List.filter_cons, hp2, ih]

theorem mem_filter_insert_bundle {σ : Type} (l : List (OutputAssignment σ))
    (F : Txid → Option WitnessOrd) (B : BundleId) (I : Finset BundleId)
    (a : OutputAssignment σ) :
    (a ∈ (l.filter (fun x => x.check_witness F)).filter
        (fun x => x.check_bundle (insert B I))) ↔
      (a ∈ (l.filter (fun x => x.check_witness F)).filter
        (fun x => x.check_bundle I)) ∧ a.bundle_id ≠ some B := by
  simp only [List.mem_filter, check_bundle_insert_bool, Bool.and_eq_true,
    Bool.not_eq_eq_eq_not, Bool.not_true, beq_eq_false_iff_ne, ne_eq]
  tauto

/-- C8.  Invalidating bundle `B` hides exactly the assignments carried
by `B` from the filtered reads; revalidating it restores the state
verbatim (`update_bundle(B, true)` after `update_bundle(B, false)` is
the identity when `B` started valid), making `rights` counts move
`n → n−k → n` with `k` the number of witness-visible matching
assignments carried by `B`; and both directions are idempotent on the
invalid-bundle set. -/
theorem C8_update_bundle_invalidate_revalidate (s : MemState) (B : BundleId)
    (cid : ContractId) (out : Outpoint) (ty : AssignmentType)
    (hB : B ∉ s.invalid_bundles) :
    ((s.update_bundle B false).update_bundle B true = s)
    ∧ ((s.update_bundle B false).update_bundle B false = s.update_bundle B false)
    ∧ (∀ s2 : MemState, (s2.update_bundle B true).update_bundle B true
        = s2.update_bundle B true)
    ∧ (∀ st, s.contracts cid = some st →
        ∃ mc mc1, s.contract_state cid = .ok mc
          ∧ (s.update_bundle B false).contract_state cid = .ok mc1
          ∧ (∀ a, a ∈ mc1.rights_all ↔ a ∈ mc.rights_all ∧ a.bundle_id ≠ some B)
          ∧ (∀ a, a ∈ mc1.fungible_all ↔
              a ∈ mc.fungible_all ∧ a.bundle_id ≠ some B)
          ∧ (∀ a, a ∈ mc1.data_all ↔ a ∈ mc.data_all ∧ a.bundle_id ≠ some B)
          ∧ mc1.rights out ty + (((mc.unfiltered.rights.filter (fun a =>
                a.seal.to_outpoint == out && a.opout.ty == ty)).filter (fun a =>
                a.check_witness mc.filter)).filter (fun a =>
                a.bundle_id == some B)).length = mc.rights out ty) := by
  refine ⟨?_, ?_, ?_, ?_⟩
  · show ({ s with invalid_bundles := (insert B s.invalid_bundles).erase B }
      : MemState) = s
    rw [Finset.erase_insert hB]
  · show ({ s with invalid_bundles := insert B (insert B s.invalid_bundles) }
      : MemState) = { s with invalid_bundles := insert B s.invalid_bundles }
    rw [Finset.insert_idem]
  · intro s2
    show ({ s2 with invalid_bundles := (s2.invalid_bundles.erase B).erase B }
      : MemState) = { s2 with invalid_bundles := s2.invalid_bundles.erase B }
    rw [Finset.erase_idem]
  · intro st hst
    refine ⟨⟨fun t => if st.references t then s.witnesses t else none,
        s.invalid_bundles, st⟩,
      ⟨fun t => if st.references t then s.witnesses t else none,
        insert B s.invalid_bundles, st⟩, ?_, ?_, ?_, ?_, ?_, ?_⟩
    · unfold MemState.contract_state
      rw [hst]
    · unfold MemState.contract_state
      have hst1 : (s.update_bundle B false).contracts cid = some st := hst
      rw [hst1]
      rfl
    · intro a
      exact mem_filter_insert_bundle st.rights _ B s.invalid_bundles a
    · intro a
      exact mem_filter_insert_bundle st.fungibles _ B s.invalid_bundles a
    · intro a
      exact mem_filter_insert_bundle st.data _ B s.invalid_bundles a
    · simp only [MemContract.rights]
      have hc1 : ∀ (L : List (OutputAssignment VoidState)),
          L.filter (fun a => a.check_bundle (insert B s.invalid_bundles)) =
            L.filter (fun a => a.check_bundle s.invalid_bundles &&
              !(a.bundle_id == some B)) :=
        fun L => List.filter_congr
          (fun a _ => check_bundle_insert_bool a B s.invalid_bundles)
      have hc2 : ∀ (L : List (OutputAssignment VoidState)),
          L.filter (fun a => a.check_bundle s.invalid_bundles &&
              (a.bundle_id == some B)) =
            L.filter (fun a => a.bundle_id == some B) := by
        refine fun L => List.filter_congr (fun a _ => ?_)
        cases hbeq : (a.bundle_id == some B) with
        | false => simp
        | true =>
          have hbid : a.bundle_id = some B := by simpa using hbeq
          simp [OutputAssignment.check_bundle, hbid, hB]
      rw [hc1, ← hc2]
      rw [length_filter_split ((st.rights.filter (fun a =>
          a.seal.to_outpoint == out && a.opout.ty == ty)).filter (fun a =>
          a.check_witness (fun t => if st.references t then s.witnesses t
            else none)))
        (fun a => a.check_bundle s.invalid_bundles)
        (fun a => a.bundle_id == some B)]
      omega

/-- A two-assignment contract used to witness C8: one right carried by
bundle 1, one right with no bundle. -/
def c8St : MemContractState :=
  { schema_id := 0, contract_id := 0, global := [],
    rights := [⟨⟨5, 0, 0⟩, ⟨0, 0⟩, (), none, some 1⟩,
               ⟨⟨6, 0, 0⟩, ⟨0, 0⟩, (), none, none⟩],
    fungibles := [], data := [] }

def c8State : MemState :=
  { witnesses := fun _ => none, invalid_bundles := ∅,
    contracts := fun c => if c = 0 then some c8St else none }

/-- Witness for C8 at the concrete state `c8State`, bundle 1. -/
theorem C8_update_bundle_invalidate_revalidate_witness :
    (1 ∉ c8State.invalid_bundles)
    ∧ (((c8State.update_bundle 1 false).update_bundle 1 true = c8State)
      ∧ ((c8State.update_bundle 1 false).update_bundle 1 false =
          c8State.update_bundle 1 false)
      ∧ (∀ s2 : MemState, (s2.update_bundle 1 true).update_bundle 1 true
          = s2.update_bundle 1 true)
      ∧ (∀ st, c8State.contracts 0 = some st →
          ∃ mc mc1, c8State.contract_state 0 = .ok mc
            ∧ (c8State.update_bundle 1 false).contract_state 0 = .ok mc1
            ∧ (∀ a, a ∈ mc1.rights_all ↔
                a ∈ mc.rights_all ∧ a.bundle_id ≠ some 1)
            ∧ (∀ a, a ∈ mc1.fungible_all ↔
                a ∈ mc.fungible_all ∧ a.bundle_id ≠ some 1)
            ∧ (∀ a, a ∈ mc1.data_all ↔
                a ∈ mc.data_all ∧ a.bundle_id ≠ some 1)
            ∧ mc1.rights ⟨0, 0⟩ 0 + (((mc.unfiltered.rights.filter (fun a =>
                  a.seal.to_outpoint == (⟨0, 0⟩ : Outpoint) &&
                    a.opout.ty == 0)).filter (fun a =>
                  a.check_witness mc.filter)).filter (fun a =>
                  a.bundle_id == some 1)).length = mc.rights ⟨0, 0⟩ 0)) :=
  ⟨by decide,
    C8_update_bundle_invalidate_revalidate c8State 1 0 ⟨0, 0⟩ 0 (by decide)⟩

/-! ## Claim C9 — `upsert_witness` frame property -/

/-- C9.  `upsert_witness(T, o)` rewrites only the witness-ordinal entry
for `T`: contracts (hence every stored assignment) and the
invalid-bundle set are untouched, and every other ordinal entry is
preserved.  Flipping `T` between two non-hidden ordinals — the spec's
S5 scenario `Tentative → Mined(h, t)` — leaves `rights_all`,
`fungible_all` and `data_all` unchanged. -/
theorem C9_upsert_witness_frame (s : MemState) (T : Txid) (o : WitnessOrd)
    (h ts : Nat) (cid : ContractId) :
    ((s.upsert_witness T o).contracts = s.contracts)
    ∧ ((s.upsert_witness T o).invalid_bundles = s.invalid_bundles)
    ∧ ((s.upsert_witness T o).witnesses T = some o)
    ∧ (∀ w, w ≠ T → (s.upsert_witness T o).witnesses w = s.witnesses w)
    ∧ (∀ mc1 mc2,
        (s.upsert_witness T .Tentative).contract_state cid = .ok mc1 →
        ((s.upsert_witness T .Tentative).upsert_witness T
            (.Mined h ts)).contract_state cid = .ok mc2 →
        mc2.rights_all = mc1.rights_all
          ∧ mc2.fungible_all = mc1.fungible_all
          ∧ mc2.data_all = mc1.data_all
          ∧ mc2.unfiltered = mc1.unfiltered
          ∧ mc2.invalid_bundles = mc1.invalid_bundles) := by
  refine ⟨rfl, rfl, by simp [MemState.upsert_witness, mapInsert], ?_, ?_⟩
  · intro w hw
    simp [MemState.upsert_witness, mapInsert, hw]
  · intro mc1 mc2 h1 h2
    unfold MemState.contract_state at h1 h2
    cases hst : s.contracts cid with
    | none =>
      have hst1 : (s.upsert_witness T .Tentative).contracts cid = none := hst
      rw [hst1] at h1
      exact Except.noConfusion h1
    | some st =>
      have hst1 : (s.upsert_witness T .Tentative).contracts cid = some st := hst
      have hst2 : ((s.upsert_witness T .Tentative).upsert_witness T
          (.Mined h ts)).contracts cid = some st := hst
      rw [hst1] at h1
      rw [hst2] at h2
      injection h1 with h1e
      injection h2 with h2e
      cases h1e
      cases h2e
      have hclass : ∀ w,
          (match (if st.references w then ((s.upsert_witness T
              .Tentative).upsert_witness T (.Mined h ts)).witnesses w
            else none : Option WitnessOrd) with
            | none => true | some .Archived => true | some _ => false) =
          (match (if st.references w then (s.upsert_witness T
              .Tentative).witnesses w else none : Option WitnessOrd) with
            | none => true | some .Archived => true | some _ => false) := by
        intro w
        by_cases hr : st.references w = true
        · by_cases hw : w = T
          · subst hw
            simp [hr, MemState.upsert_witness, mapInsert]
          · simp [hr, hw, MemState.upsert_witness, mapInsert]
        · simp [hr]
      have hcw : ∀ (σ : Type) (a : OutputAssignment σ),
          a.check_witness (fun t => if st.references t then
            ((s.upsert_witness T .Tentative).upsert_witness T
              (.Mined h ts)).witnesses t else none) =
          a.check_witness (fun t => if st.references t then
            (s.upsert_witness T .Tentative).witnesses t else none) := by
        intro σ a
        cases hwit : a.witness with
        | none => simp [OutputAssignment.check_witness, hwit]
        | some w =>
          simp only [OutputAssignment.check_witness, hwit]
          rw [hclass w]
      refine ⟨?_, ?_, ?_, rfl, rfl⟩
      · simp only [MemContract.rights_all]
        exact congrArg (List.filter (fun a => a.check_bundle s.invalid_bundles))
          (List.filter_congr (fun a _ => hcw _ a))
      · simp only [MemContract.fungible_all]
        exact congrArg (List.filter (fun a => a.check_bundle s.invalid_bundles))
          (List.filter_congr (fun a _ => hcw _ a))
      · simp only [MemContract.data_all]
        exact congrArg (List.filter (fun a => a.check_bundle s.invalid_bundles))
          (List.filter_congr (fun a _ => hcw _ a))

/-! ## Claim C10 — `clone_no_persistence` drops the invalid-bundle set -/

/-- A one-assignment contract whose only right is carried by bundle 1,
used to exhibit the C10 visibility difference. -/
def c10St : MemContractState :=
  { schema_id := 0, contract_id := 0, global := [],
    rights := [⟨⟨5, 0, 0⟩, ⟨0, 0⟩, (), none, some 1⟩],
    fungibles := [], data := [] }

def c10State : MemState :=
  { witnesses := fun _ => none, invalid_bundles := {1},
    contracts := fun c => if c = 0 then some c10St else none }

/-- C10.  `clone_no_persistence` copies `witnesses` and `contracts`
verbatim but always resets `invalid_bundles` to the empty set; hence on
any state with a non-empty invalid set the clone's filtered reads can
show assignments the original hides — exhibited on `c10State`, whose
single bundle-1 right is absent from the original's `rights_all` and
present in the clone's. -/
theorem C10_clone_drops_invalid_bundles :
    (∀ s : MemState, (s.clone_no_persistence).invalid_bundles = ∅
      ∧ (s.clone_no_persistence).witnesses = s.witnesses
      ∧ (s.clone_no_persistence).contracts = s.contracts)
    ∧ (∃ (s : MemState) (cid : ContractId) (mc mcc : MemContract)
          (a : OutputAssignment VoidState),
        s.invalid_bundles ≠ ∅
        ∧ s.contract_state cid = .ok mc
        ∧ (s.clone_no_persistence).contract_state cid = .ok mcc
        ∧ a ∉ mc.rights_all ∧ a ∈ mcc.rights_all) := by
  refine ⟨fun s => ⟨rfl, rfl, rfl⟩, c10State, 0,
    ⟨fun t => if c10St.references t then c10State.witnesses t else none,
      {1}, c10St⟩,
    ⟨fun t => if c10St.references t then c10State.witnesses t else none,
      ∅, c10St⟩,
    ⟨⟨5, 0, 0⟩, ⟨0, 0⟩, (), none, some 1⟩, ?_, ?_, ?_, ?_, ?_⟩
  · decide
  · rfl
  · rfl
  · decide
  · decide
